import Mathlib

/-!
Shallow embedding of `src/main.py` of the TravelAI repository: a chat backend
that keeps per-conversation message history in an in-memory dict
(`conversations`), streams an upstream model response fragment by fragment,
and commits one (user, assistant) pair to the history when the stream
completes or fails.

The embedding models:
  * stored messages (`Msg`, the `{"role": ..., "content": ...}` dicts),
  * the global store `conversations` as an association list (`Store`),
  * `get_or_create_conversation`, `get_conversation`, `clear_conversation`,
  * the `generate` async generator of the `chat` handler as a trace of
    events (`GenEvent`): one `emit` per fragment yielded to the HTTP
    stream, one `commit` for the pair appended to the history,
  * the `chat` handler itself, with the upstream stream represented by the
    list of chunk texts delivered before it completes (`err = none`) or
    raises (`err = some e`), and a possible pre-stream exception
    (`initError`) standing for a failure between history lookup and the
    start of streaming (caught by the outer handler as a 500).
-/

/-- A stored message: the `{"role": r, "content": c}` dicts kept in
`conversations[conversation_id]` in `main.py`. -/
structure Msg where
  role : String
  content : String
deriving Repr, DecidableEq

/-- A conversation: the ordered list `conversations[conversation_id]`. -/
abbrev Conversation := List Msg

/-- The global `conversations` dict, modelled as an association list from
conversation id to message list. -/
abbrev Store := List (String × Conversation)

/-- Dict lookup `conversations.get(key)`: first binding for the key. -/
def Store.find? : Store → String → Option Conversation
  | [], _ => none
  | (k, v) :: rest, key => if k = key then some v else Store.find? rest key

/-- Dict write `conversations[key] = v`: replace the first binding for the
key if present, otherwise add a new binding at the end. -/
def Store.setKey : Store → String → Conversation → Store
  | [], key, v => [(key, v)]
  | (k, w) :: rest, key, v =>
      if k = key then (key, v) :: rest else (k, w) :: Store.setKey rest key v

/-- Dict delete `del conversations[key]`: remove every binding for the key. -/
def Store.erase : Store → String → Store
  | [], _ => []
  | (k, v) :: rest, key =>
      if k = key then Store.erase rest key else (k, v) :: Store.erase rest key

/-- `get_or_create_conversation` from `main.py`: if the id is absent,
register it with an empty list; return the (possibly updated) store and the
list bound to the id. -/
def get_or_create_conversation (store : Store) (conversation_id : String) :
    Store × Conversation :=
  match Store.find? store conversation_id with
  | some conv => (store, conv)
  | none => (Store.setKey store conversation_id [], [])

/-- Response body of `GET /api/conversations/{conversation_id}`. -/
structure ConversationResponse where
  conversation_id : String
  messages : Conversation
deriving Repr, DecidableEq

/-- `get_conversation` from `main.py`: non-creating read,
`conversations.get(conversation_id, [])`. -/
def get_conversation (store : Store) (conversation_id : String) :
    ConversationResponse :=
  ⟨conversation_id, (Store.find? store conversation_id).getD []⟩

/-- Response body of `POST /api/conversations/{conversation_id}/clear`. -/
structure ClearResponse where
  status : String
  conversation_id : String
deriving Repr, DecidableEq

/-- `clear_conversation` from `main.py`: delete the key if present, then
return `{"status": "cleared", "conversation_id": conversation_id}`. -/
def clear_conversation (store : Store) (conversation_id : String) :
    Store × ClearResponse :=
  (if (Store.find? store conversation_id).isSome then
      Store.erase store conversation_id
    else store,
   ⟨"cleared", conversation_id⟩)

/-- The fixed fallback assigned to `full_response` in `generate` when the
stream is exhausted with an empty accumulator. -/
def fallbackResponse : String :=
  "I encountered an issue generating a response. Please try again."

/-- The in-band error text `error_msg = f"Error: \x7bstr(e)\x7d"` built in the
`except` branch of `generate`. -/
def errorText (e : String) : String := "Error: " ++ e

/-- One observable event of the `generate` generator: a fragment yielded to
the HTTP stream, or the append of the (user, assistant) pair to the
conversation history. -/
inductive GenEvent where
  | emit (text : String)
  | commit (userMsg : Msg) (assistantMsg : Msg)
deriving Repr, DecidableEq

/-- The `for chunk in response` loop of `generate`: for each chunk with
non-empty text, append the text to `full_response` and yield it. Returns
the events of the loop and the final accumulator. -/
def chunkLoop (chunks : List String) (full_response : String) :
    List GenEvent × String :=
  match chunks with
  | [] => ([], full_response)
  | chunk :: rest =>
      if chunk ≠ "" then
        let r := chunkLoop rest (full_response ++ chunk)
        (GenEvent.emit chunk :: r.1, r.2)
      else chunkLoop rest full_response

/-- The accumulator `full_response` after the chunk loop, starting empty. -/
def fullResponseOf (chunks : List String) : String := (chunkLoop chunks "").2

/-- Event trace of one invocation of the `generate` generator of `main.py`.
`chunks` are the chunk texts delivered by the upstream stream before it
either completes (`err = none`) or raises an exception (`err = some e`,
carrying `str(e)`). On completion with an empty accumulator the fixed
fallback is substituted; on exception the error text is yielded only if the
accumulator is empty, and the stored assistant content is
`full_response or error_msg`. Both paths end with exactly one commit. -/
def generateTrace (user_message : String) (chunks : List String)
    (err : Option String) : List GenEvent :=
  let r := chunkLoop chunks ""
  match err with
  | none =>
      let final := if r.2 = "" then fallbackResponse else r.2
      r.1 ++ [GenEvent.commit ⟨"user", user_message⟩ ⟨"assistant", final⟩]
  | some e =>
      let error_msg := errorText e
      (if r.2 = "" then r.1 ++ [GenEvent.emit error_msg] else r.1) ++
        [GenEvent.commit ⟨"user", user_message⟩
          ⟨"assistant", if r.2 = "" then error_msg else r.2⟩]

/-- Texts of the fragments yielded to the HTTP stream, in order. -/
def emittedOf (tr : List GenEvent) : List String :=
  tr.filterMap (fun ev =>
    match ev with
    | GenEvent.emit t => some t
    | GenEvent.commit _ _ => none)

/-- The (user, assistant) pairs committed to the history, in order. -/
def commitsOf (tr : List GenEvent) : List (Msg × Msg) :=
  tr.filterMap (fun ev =>
    match ev with
    | GenEvent.emit _ => none
    | GenEvent.commit u a => some (u, a))

/-- Replay the history mutations of a trace onto a conversation. -/
def applyTrace (history : Conversation) (tr : List GenEvent) : Conversation :=
  (commitsOf tr).foldl (fun h p => h ++ [p.1, p.2]) history

/-- The `generate` generator of `main.py`, summarised as the list of yielded
fragments and the conversation after its history appends. -/
def generate (user_message : String) (chunks : List String)
    (err : Option String) (history : Conversation) :
    List String × Conversation :=
  (emittedOf (generateTrace user_message chunks err),
   applyTrace history (generateTrace user_message chunks err))

/-- The validity check of the `chat` handler:
`not user_message or not user_message.strip()` in Python holds exactly when
the content is empty or consists of whitespace only, i.e. when every
character is whitespace. -/
def isBlank (s : String) : Bool :=
  s.data.all (fun c => c.isWhitespace)

/-- The pydantic request model `Message` of `main.py`. -/
structure Message where
  content : String
  conversation_id : String
deriving Repr, DecidableEq

/-- Outcome of the `chat` handler: a 400 rejection before any store access,
a 500 after the history lookup but before streaming, or a streamed
response. Each outcome carries the store as the handler leaves it. -/
inductive ChatOutcome where
  | rejected (status : Nat) (detail : String) (store : Store)
  | serverError (detail : String) (store : Store)
  | streamed (yielded : List String) (store : Store)
deriving Repr, DecidableEq

/-- The store as the handler leaves it, in any outcome. -/
def ChatOutcome.store : ChatOutcome → Store
  | ChatOutcome.rejected _ _ s => s
  | ChatOutcome.serverError _ s => s
  | ChatOutcome.streamed _ s => s

/-- The `chat` handler of `main.py` (`POST /api/chat`). Blank content is
rejected with a 400 before any store access. Otherwise the conversation is
registered via `get_or_create_conversation`; `initError = some e` stands
for an exception raised after that but before streaming begins (model
construction, history conversion), surfaced by the outer handler as a 500;
with `initError = none` the generator runs against the upstream stream
`(chunks, err)` and its appends land in the store entry for the id. -/
def chat (store : Store) (message : Message) (initError : Option String)
    (chunks : List String) (err : Option String) : ChatOutcome :=
  if isBlank message.content then
    ChatOutcome.rejected 400 "Message cannot be empty" store
  else
    let gc := get_or_create_conversation store message.conversation_id
    match initError with
    | some e => ChatOutcome.serverError e gc.1
    | none =>
        let r := generate message.content chunks err gc.2
        ChatOutcome.streamed r.1
          (Store.setKey gc.1 message.conversation_id r.2)

/-- Concatenation of a list of fragments, in arrival order, as the client
assembles the streamed body. -/
def concatAll (l : List String) : String :=
  l.foldl (fun a b => a ++ b) ""

/-- Derived summary: the assistant content committed by one invocation of
the generator, as a function of the upstream outcome. On completion it is
the accumulator, or the fallback if the accumulator is empty; on exception
it is `full_response or error_msg`. -/
def finalResponseOf (chunks : List String) (err : Option String) : String :=
  match err with
  | none => if fullResponseOf chunks = "" then fallbackResponse
            else fullResponseOf chunks
  | some e => if fullResponseOf chunks = "" then errorText e
              else fullResponseOf chunks

/-! ### Helper lemmas about strings and concatenation -/

theorem strAppend_eq_empty_iff (a b : String) :
    a ++ b = "" ↔ a = "" ∧ b = "" := by
  constructor
  · intro h
    have hd : a.data ++ b.data = ([] : List Char) := by
      have := congrArg String.data h
      rwa [String.data_append] at this
    have hp := List.append_eq_nil.mp hd
    exact ⟨String.ext hp.1, String.ext hp.2⟩
  · rintro ⟨rfl, rfl⟩
    rfl

theorem concatAll_foldl (xs : List String) (a : String) :
    xs.foldl (fun u v => u ++ v) a = a ++ concatAll xs := by
  induction xs generalizing a with
  | nil => simp [concatAll]
  | cons x xs ih =>
      show xs.foldl (fun u v => u ++ v) (a ++ x) = _
      rw [ih (a ++ x)]
      have hx : concatAll (x :: xs) = x ++ concatAll xs := by
        show xs.foldl (fun u v => u ++ v) ("" ++ x) = _
        rw [ih ("" ++ x), String.empty_append]
      rw [hx, String.append_assoc]

theorem concatAll_cons (x : String) (xs : List String) :
    concatAll (x :: xs) = x ++ concatAll xs := by
  show xs.foldl (fun u v => u ++ v) ("" ++ x) = _
  rw [concatAll_foldl xs ("" ++ x), String.empty_append]

theorem concatAll_singleton (x : String) : concatAll [x] = x := by
  rw [concatAll_cons]
  show x ++ concatAll [] = x
  rw [show concatAll [] = "" from rfl, String.append_empty]

theorem concatAll_ne_empty (x : String) (xs : List String) (hx : x ≠ "") :
    concatAll (x :: xs) ≠ "" := by
  rw [concatAll_cons]
  intro h
  exact hx ((strAppend_eq_empty_iff x (concatAll xs)).mp h).1

/-! ### Helper lemmas about traces -/

theorem emittedOf_nil : emittedOf [] = [] := rfl

theorem emittedOf_emit (t : String) (l : List GenEvent) :
    emittedOf (GenEvent.emit t :: l) = t :: emittedOf l := rfl

theorem emittedOf_commit (a b : Msg) (l : List GenEvent) :
    emittedOf (GenEvent.commit a b :: l) = emittedOf l := rfl

theorem emittedOf_append (l1 l2 : List GenEvent) :
    emittedOf (l1 ++ l2) = emittedOf l1 ++ emittedOf l2 :=
  List.filterMap_append l1 l2 _

theorem commitsOf_nil : commitsOf [] = [] := rfl

theorem commitsOf_emit (t : String) (l : List GenEvent) :
    commitsOf (GenEvent.emit t :: l) = commitsOf l := rfl

theorem commitsOf_commit (a b : Msg) (l : List GenEvent) :
    commitsOf (GenEvent.commit a b :: l) = (a, b) :: commitsOf l := rfl

theorem commitsOf_append (l1 l2 : List GenEvent) :
    commitsOf (l1 ++ l2) = commitsOf l1 ++ commitsOf l2 :=
  List.filterMap_append l1 l2 _

theorem trace_nil_of_parts (l : List GenEvent) (he : emittedOf l = [])
    (hc : commitsOf l = []) : l = [] := by
  cases l with
  | nil => rfl
  | cons ev rest =>
      cases ev with
      | emit t => simp [emittedOf_emit] at he
      | commit a b => simp [commitsOf_commit] at hc

/-! ### Helper lemmas about the chunk loop -/

theorem chunkLoop_commits (chunks : List String) (acc : String) :
    commitsOf (chunkLoop chunks acc).1 = [] := by
  induction chunks generalizing acc with
  | nil => rfl
  | cons c cs ih =>
      by_cases hc : c = ""
      · simpa [chunkLoop, hc] using ih acc
      · simp [chunkLoop, hc, commitsOf_emit, ih]

theorem chunkLoop_snd (chunks : List String) (acc : String) :
    (chunkLoop chunks acc).2 = acc ++ concatAll (emittedOf (chunkLoop chunks acc).1) := by
  induction chunks generalizing acc with
  | nil =>
      simp [chunkLoop, emittedOf_nil]
      rw [show concatAll [] = "" from rfl, String.append_empty]
  | cons c cs ih =>
      by_cases hc : c = ""
      · simpa [chunkLoop, hc] using ih acc
      · simp only [chunkLoop, hc, ne_eq, not_false_eq_true, if_true, ite_true]
        rw [emittedOf_emit, concatAll_cons, ih (acc ++ c), String.append_assoc]

theorem chunkLoop_emits_ne (chunks : List String) (acc : String) :
    ∀ t ∈ emittedOf (chunkLoop chunks acc).1, t ≠ "" := by
  induction chunks generalizing acc with
  | nil => intro t ht; simp [chunkLoop, emittedOf_nil] at ht
  | cons c cs ih =>
      by_cases hc : c = ""
      · intro t ht
        rw [show chunkLoop (c :: cs) acc = chunkLoop cs acc from by simp [chunkLoop, hc]] at ht
        exact ih acc t ht
      · intro t ht
        simp only [chunkLoop, hc, ne_eq, not_false_eq_true, ite_true] at ht
        rw [emittedOf_emit] at ht
        rcases List.mem_cons.mp ht with rfl | hmem
        · exact hc
        · exact ih (acc ++ c) t hmem

theorem chunkLoop_fst_nil (chunks : List String)
    (h : (chunkLoop chunks "").2 = "") : (chunkLoop chunks "").1 = [] := by
  have hs := chunkLoop_snd chunks ""
  rw [h, String.empty_append] at hs
  have hemp : emittedOf (chunkLoop chunks "").1 = [] := by
    cases hx : emittedOf (chunkLoop chunks "").1 with
    | nil => rfl
    | cons x xs =>
        exfalso
        have hxne : x ≠ "" := chunkLoop_emits_ne chunks "" x (hx ▸ List.mem_cons_self x xs)
        exact concatAll_ne_empty x xs hxne (by rw [← hx, ← hs])
  exact trace_nil_of_parts _ hemp (chunkLoop_commits chunks "")

theorem chunkLoop_snd_of_fst_nil (chunks : List String)
    (h : (chunkLoop chunks "").1 = []) : (chunkLoop chunks "").2 = "" := by
  have hs := chunkLoop_snd chunks ""
  rw [h, emittedOf_nil, String.empty_append] at hs
  exact hs

theorem concatAll_emitted_eq_full (chunks : List String) :
    concatAll (emittedOf (chunkLoop chunks "").1) = fullResponseOf chunks := by
  have hs := chunkLoop_snd chunks ""
  rw [String.empty_append] at hs
  exact hs.symm

/-! ### Helper lemmas about the generator trace -/

theorem generateTrace_commits (u : String) (chunks : List String)
    (err : Option String) :
    commitsOf (generateTrace u chunks err)
      = [(⟨"user", u⟩, ⟨"assistant", finalResponseOf chunks err⟩)] := by
  cases err with
  | none =>
      by_cases hfull : (chunkLoop chunks "").2 = "" <;>
        simp [generateTrace, finalResponseOf, fullResponseOf, hfull,
          commitsOf_append, chunkLoop_commits, commitsOf_commit, commitsOf_nil]
  | some e =>
      by_cases hfull : (chunkLoop chunks "").2 = "" <;>
        simp [generateTrace, finalResponseOf, fullResponseOf, hfull,
          commitsOf_append, chunkLoop_commits, commitsOf_commit,
          commitsOf_emit, commitsOf_nil]

theorem generateTrace_last (u : String) (chunks : List String)
    (err : Option String) :
    (generateTrace u chunks err).getLast?
      = some (GenEvent.commit ⟨"user", u⟩
          ⟨"assistant", finalResponseOf chunks err⟩) := by
  cases err with
  | none =>
      by_cases hfull : (chunkLoop chunks "").2 = "" <;>
        simp [generateTrace, finalResponseOf, fullResponseOf, hfull,
          List.getLast?_concat]
  | some e =>
      by_cases hfull : (chunkLoop chunks "").2 = "" <;>
        simp [generateTrace, finalResponseOf, fullResponseOf, hfull,
          List.getLast?_concat]

theorem generateTrace_emitted_none (u : String) (chunks : List String) :
    emittedOf (generateTrace u chunks none)
      = emittedOf (chunkLoop chunks "").1 := by
  simp [generateTrace, emittedOf_append, emittedOf_commit, emittedOf_nil]

theorem generateTrace_emitted_err_empty (u e : String) (chunks : List String)
    (hfull : (chunkLoop chunks "").2 = "") :
    emittedOf (generateTrace u chunks (some e)) = [errorText e] := by
  have hnil := chunkLoop_fst_nil chunks hfull
  simp [generateTrace, hfull, hnil, emittedOf_append, emittedOf_emit,
    emittedOf_commit, emittedOf_nil]

theorem generateTrace_emitted_err_nonempty (u e : String)
    (chunks : List String) (hfull : (chunkLoop chunks "").2 ≠ "") :
    emittedOf (generateTrace u chunks (some e))
      = emittedOf (chunkLoop chunks "").1 := by
  simp [generateTrace, hfull, emittedOf_append, emittedOf_commit, emittedOf_nil]

theorem applyTrace_single (history : Conversation) (tr : List GenEvent)
    (a b : Msg) (h : commitsOf tr = [(a, b)]) :
    applyTrace history tr = history ++ [a, b] := by
  simp [applyTrace, h]

theorem generate_snd (u : String) (chunks : List String) (err : Option String)
    (history : Conversation) :
    (generate u chunks err history).2
      = history ++ [⟨"user", u⟩, ⟨"assistant", finalResponseOf chunks err⟩] :=
  applyTrace_single history _ _ _ (generateTrace_commits u chunks err)

theorem errorText_ne_empty (e : String) : errorText e ≠ "" := by
  intro h
  have := ((strAppend_eq_empty_iff "Error: " e).mp h).1
  exact absurd this (by decide)

/-! ### Helper lemmas about the store -/

theorem Store.find?_setKey_self (s : Store) (k : String) (v : Conversation) :
    Store.find? (Store.setKey s k v) k = some v := by
  induction s with
  | nil => simp [Store.setKey, Store.find?]
  | cons p rest ih =>
      obtain ⟨k1, v1⟩ := p
      by_cases hk : k1 = k
      · simp [Store.setKey, hk, Store.find?]
      · simp [Store.setKey, hk, Store.find?, ih]

theorem Store.find?_erase_self (s : Store) (k : String) :
    Store.find? (Store.erase s k) k = none := by
  induction s with
  | nil => rfl
  | cons p rest ih =>
      obtain ⟨k1, v1⟩ := p
      by_cases hk : k1 = k
      · simp [Store.erase, hk, ih]
      · simp [Store.erase, hk, Store.find?, ih]

theorem Store.setKey_of_absent (s : Store) (k : String) (v : Conversation)
    (h : Store.find? s k = none) : Store.setKey s k v = s ++ [(k, v)] := by
  induction s with
  | nil => rfl
  | cons p rest ih =>
      obtain ⟨k1, v1⟩ := p
      by_cases hk : k1 = k
      · simp [Store.find?, hk] at h
      · rw [Store.find?] at h
        simp only [hk, if_false, ite_false] at h
        simp [Store.setKey, hk, ih h]

theorem Store.find?_mem (s : Store) (k : String) (v : Conversation)
    (h : Store.find? s k = some v) : (k, v) ∈ s := by
  induction s with
  | nil => simp [Store.find?] at h
  | cons p rest ih =>
      obtain ⟨k1, v1⟩ := p
      by_cases hk : k1 = k
      · subst hk
        rw [Store.find?, if_pos rfl] at h
        obtain rfl := Option.some.inj h
        exact List.mem_cons_self _ _
      · rw [Store.find?] at h
        simp only [hk, if_false, ite_false] at h
        exact List.mem_cons_of_mem _ (ih h)

theorem find?_clear (store : Store) (cid : String) :
    Store.find? (clear_conversation store cid).1 cid = none := by
  by_cases h : (Store.find? store cid).isSome = true
  · simp [clear_conversation, h, Store.find?_erase_self]
  · simp only [clear_conversation, h, if_false, ite_false]
    exact Option.not_isSome_iff_eq_none.mp (by exact_mod_cast h)

/-! ### The even-message-count invariant -/

/-- Every conversation held in the store has an even message count. -/
abbrev evenStore (s : Store) : Prop := ∀ p ∈ s, Even p.2.length

theorem evenStore_setKey (k : String) (v : Conversation) (hv : Even v.length) :
    ∀ s : Store, evenStore s → evenStore (Store.setKey s k v) := by
  intro s
  induction s with
  | nil =>
      intro _ p hp
      simp only [Store.setKey, List.mem_singleton] at hp
      subst hp
      exact hv
  | cons q rest ih =>
      obtain ⟨k1, v1⟩ := q
      intro hs p hp
      have hrest : evenStore rest := fun q hq => hs q (List.mem_cons_of_mem _ hq)
      by_cases hk : k1 = k
      · rw [show Store.setKey ((k1, v1) :: rest) k v = (k, v) :: rest from by
            simp [Store.setKey, hk]] at hp
        rcases List.mem_cons.mp hp with rfl | hmem
        · exact hv
        · exact hrest p hmem
      · rw [show Store.setKey ((k1, v1) :: rest) k v
              = (k1, v1) :: Store.setKey rest k v from by
            simp [Store.setKey, hk]] at hp
        rcases List.mem_cons.mp hp with rfl | hmem
        · exact hs _ (List.mem_cons_self _ _)
        · exact ih hrest p hmem

theorem evenStore_erase (k : String) :
    ∀ s : Store, evenStore s → evenStore (Store.erase s k) := by
  intro s
  induction s with
  | nil =>
      intro _ p hp
      simp [Store.erase] at hp
  | cons q rest ih =>
      obtain ⟨k1, v1⟩ := q
      intro hs p hp
      have hrest : evenStore rest := fun q hq => hs q (List.mem_cons_of_mem _ hq)
      by_cases hk : k1 = k
      · rw [show Store.erase ((k1, v1) :: rest) k = Store.erase rest k from by
            simp [Store.erase, hk]] at hp
        exact ih hrest p hp
      · rw [show Store.erase ((k1, v1) :: rest) k
              = (k1, v1) :: Store.erase rest k from by
            simp [Store.erase, hk]] at hp
        rcases List.mem_cons.mp hp with rfl | hmem
        · exact hs _ (List.mem_cons_self _ _)
        · exact ih hrest p hmem

theorem get_or_create_fst_even (store : Store) (cid : String)
    (h : evenStore store) : evenStore (get_or_create_conversation store cid).1 := by
  cases hfind : Store.find? store cid with
  | some conv => simpa [get_or_create_conversation, hfind] using h
  | none =>
      simp only [get_or_create_conversation, hfind]
      exact evenStore_setKey cid [] ⟨0, rfl⟩ store h

theorem get_or_create_snd_even (store : Store) (cid : String)
    (h : evenStore store) :
    Even (get_or_create_conversation store cid).2.length := by
  cases hfind : Store.find? store cid with
  | some conv =>
      simp only [get_or_create_conversation, hfind]
      exact h _ (Store.find?_mem store cid conv hfind)
  | none =>
      simp only [get_or_create_conversation, hfind]
      exact ⟨0, rfl⟩

theorem drop_last_two (h : Conversation) (a b : Msg) :
    (h ++ [a, b]).drop ((h ++ [a, b]).length - 2) = [a, b] := by
  have hl : (h ++ [a, b]).length = h.length + 2 := by simp
  rw [hl, Nat.add_sub_cancel]
  exact List.drop_left h [a, b]

/-! ### Claims -/

/-- C1 counterexample: with content "hi", conversation id "a", and an
upstream stream that completes having delivered no chunks, the stored
message list ends with an assistant message whose content is the fixed
fallback, while the accumulated stream text is empty — so the last two
entries are not (user, accumulated text) as the claim states. -/
theorem C1_counterexample :
    (get_conversation (ChatOutcome.store (chat [] ⟨"hi", "a"⟩ none [] none)) "a").messages
      = [⟨"user", "hi"⟩, ⟨"assistant", fallbackResponse⟩]
    ∧ concatAll (emittedOf (generateTrace "hi" [] none)) = ""
    ∧ fullResponseOf [] = ""
    ∧ fallbackResponse ≠ "" :=
  ⟨by decide, by decide, rfl, by decide⟩

/-- C1 (amended): for every valid request (non-blank content, any id) where
the streamed upstream call completes, reading the conversation afterwards
returns a message list whose last two entries are the user message followed
by the assistant message whose content is the accumulated stream text when
that is non-empty, and the fixed fallback message otherwise. -/
theorem C1_last_two_after_send (store : Store) (cid content : String)
    (chunks : List String) (h : isBlank content = false) :
    let msgs := (get_conversation
      (ChatOutcome.store (chat store ⟨content, cid⟩ none chunks none)) cid).messages
    2 ≤ msgs.length ∧
      msgs.drop (msgs.length - 2)
        = [⟨"user", content⟩, ⟨"assistant", finalResponseOf chunks none⟩] := by
  intro msgs
  have hmsgs : msgs = (get_or_create_conversation store cid).2
      ++ [⟨"user", content⟩, ⟨"assistant", finalResponseOf chunks none⟩] := by
    show (get_conversation
      (ChatOutcome.store (chat store ⟨content, cid⟩ none chunks none)) cid).messages = _
    simp only [chat, h, Bool.false_eq_true, if_false, ChatOutcome.store,
      get_conversation, Store.find?_setKey_self, Option.getD_some]
    exact generate_snd content chunks none (get_or_create_conversation store cid).2
  constructor
  · rw [hmsgs]
    simp
  · rw [hmsgs]
    exact drop_last_two _ _ _

/-- C1 witness: a concrete successful exchange. -/
theorem C1_witness :
    isBlank "hi" = false ∧
    (let msgs := (get_conversation
      (ChatOutcome.store (chat [] ⟨"hi", "trip1"⟩ none ["Hello", " world"] none)) "trip1").messages
     2 ≤ msgs.length ∧
       msgs.drop (msgs.length - 2)
         = [⟨"user", "hi"⟩, ⟨"assistant", finalResponseOf ["Hello", " world"] none⟩]) :=
  ⟨by decide, C1_last_two_after_send [] "trip1" "hi" ["Hello", " world"] (by decide)⟩

/-- C2: on every invocation of the generator (any upstream outcome),
exactly one (user, assistant) pair is committed to the conversation, and
the commit is the last event of the trace — after all stream output, never
before, never twice. -/
theorem C2_single_commit_at_end (u : String) (chunks : List String)
    (err : Option String) :
    commitsOf (generateTrace u chunks err)
      = [(⟨"user", u⟩, ⟨"assistant", finalResponseOf chunks err⟩)]
    ∧ (generateTrace u chunks err).getLast?
      = some (GenEvent.commit ⟨"user", u⟩
          ⟨"assistant", finalResponseOf chunks err⟩) :=
  ⟨generateTrace_commits u chunks err, generateTrace_last u chunks err⟩

/-- C3 counterexample: when the upstream completes having produced no text,
the concatenation of the yielded fragments is empty while the stored
assistant content is the non-empty fallback, so the two differ. -/
theorem C3_counterexample :
    concatAll (generate "hi" [] none []).1 = ""
    ∧ (generate "hi" [] none []).2.getLast? = some ⟨"assistant", fallbackResponse⟩
    ∧ fallbackResponse ≠ "" :=
  ⟨by decide, by decide, by decide⟩

/-- C3 (amended): for every invocation, the concatenation of the yielded
fragments equals the content of the assistant message stored for the
exchange, except in the single case where the upstream completes with an
empty accumulator: there nothing is yielded and the stored content is the
fixed fallback message. -/
theorem C3_concat_eq_stored (u : String) (chunks : List String)
    (err : Option String) (history : Conversation) :
    (generate u chunks err history).2.getLast?
      = some ⟨"assistant", finalResponseOf chunks err⟩
    ∧ (concatAll (generate u chunks err history).1 = finalResponseOf chunks err
       ∨ (err = none ∧ fullResponseOf chunks = ""
          ∧ (generate u chunks err history).1 = []
          ∧ finalResponseOf chunks err = fallbackResponse)) := by
  constructor
  · rw [generate_snd]
    rw [show history ++ [⟨"user", u⟩, (⟨"assistant", finalResponseOf chunks err⟩ : Msg)]
        = (history ++ [⟨"user", u⟩]) ++ [⟨"assistant", finalResponseOf chunks err⟩] from by
      simp]
    exact List.getLast?_concat _
  · cases err with
    | none =>
        by_cases hfull : fullResponseOf chunks = ""
        · right
          refine ⟨rfl, hfull, ?_, ?_⟩
          · show emittedOf (generateTrace u chunks none) = []
            rw [generateTrace_emitted_none, chunkLoop_fst_nil chunks hfull,
              emittedOf_nil]
          · simp [finalResponseOf, hfull]
        · left
          show concatAll (emittedOf (generateTrace u chunks none)) = _
          rw [generateTrace_emitted_none, concatAll_emitted_eq_full]
          simp [finalResponseOf, hfull]
    | some e =>
        left
        by_cases hfull : fullResponseOf chunks = ""
        · show concatAll (emittedOf (generateTrace u chunks (some e))) = _
          rw [generateTrace_emitted_err_empty u e chunks hfull, concatAll_singleton]
          simp [finalResponseOf, hfull]
        · show concatAll (emittedOf (generateTrace u chunks (some e))) = _
          rw [generateTrace_emitted_err_nonempty u e chunks hfull,
            concatAll_emitted_eq_full]
          simp [finalResponseOf, hfull]

/-- C4 counterexample: on stream exhaustion with an empty accumulator the
fallback is committed as the assistant response, but no fragment at all is
emitted to the output stream — refuting the claim that at least one
fragment is still emitted. -/
theorem C4_counterexample :
    emittedOf (generateTrace "hi" [] none) = []
    ∧ commitsOf (generateTrace "hi" [] none)
        = [(⟨"user", "hi"⟩, ⟨"assistant", fallbackResponse⟩)] :=
  ⟨by decide, by decide⟩

/-- C4 (amended): if the upstream stream is exhausted with an empty
accumulator, the stored assistant response is the fixed fallback message,
but nothing is emitted to the output stream on this path: the client
receives an empty stream. -/
theorem C4_empty_exhaustion (u : String) (chunks : List String)
    (h : fullResponseOf chunks = "") :
    commitsOf (generateTrace u chunks none)
      = [(⟨"user", u⟩, ⟨"assistant", fallbackResponse⟩)]
    ∧ emittedOf (generateTrace u chunks none) = [] := by
  constructor
  · rw [generateTrace_commits]
    simp [finalResponseOf, h]
  · rw [generateTrace_emitted_none, chunkLoop_fst_nil chunks h, emittedOf_nil]

/-- C4 witness: an upstream stream whose only chunk has empty text. -/
theorem C4_witness :
    fullResponseOf [""] = ""
    ∧ (commitsOf (generateTrace "hi" [""] none)
        = [(⟨"user", "hi"⟩, ⟨"assistant", fallbackResponse⟩)]
       ∧ emittedOf (generateTrace "hi" [""] none) = []) :=
  ⟨rfl, C4_empty_exhaustion "hi" [""] rfl⟩

/-- C5: a request whose content is empty or whitespace-only is rejected
with a 400 and detail "Message cannot be empty"; the store is returned
unchanged and the conversation history for the id is untouched. The result
is the same for every upstream behaviour, so no upstream call is made. -/
theorem C5_blank_rejected (store : Store) (cid content : String)
    (initError : Option String) (chunks : List String) (err : Option String)
    (h : isBlank content = true) :
    chat store ⟨content, cid⟩ initError chunks err
      = ChatOutcome.rejected 400 "Message cannot be empty" store
    ∧ (get_conversation (ChatOutcome.store
        (chat store ⟨content, cid⟩ initError chunks err)) cid).messages
      = (get_conversation store cid).messages := by
  have h1 : chat store ⟨content, cid⟩ initError chunks err
      = ChatOutcome.rejected 400 "Message cannot be empty" store := by
    simp [chat, h]
  refine ⟨h1, ?_⟩
  rw [h1]
  rfl

/-- C5 witness: whitespace-only content against a non-empty store. -/
theorem C5_witness :
    isBlank "   " = true
    ∧ (chat [("a", [⟨"user", "x"⟩, ⟨"assistant", "y"⟩])] ⟨"   ", "a"⟩ none ["z"] none
        = ChatOutcome.rejected 400 "Message cannot be empty"
            [("a", [⟨"user", "x"⟩, ⟨"assistant", "y"⟩])]
       ∧ (get_conversation (ChatOutcome.store
            (chat [("a", [⟨"user", "x"⟩, ⟨"assistant", "y"⟩])] ⟨"   ", "a"⟩ none ["z"] none)) "a").messages
         = (get_conversation [("a", [⟨"user", "x"⟩, ⟨"assistant", "y"⟩])] "a").messages) :=
  ⟨by decide, C5_blank_rejected [("a", [⟨"user", "x"⟩, ⟨"assistant", "y"⟩])]
      "a" "   " none ["z"] none (by decide)⟩

/-- C6: if the upstream call fails before any fragment was emitted, the
stream still yields exactly one fragment, the non-empty error indicator
"Error: " followed by the exception text, and the history still gains
exactly one user message plus one assistant message. -/
theorem C6_total_failure (u e : String) (chunks : List String)
    (history : Conversation) (h : (chunkLoop chunks "").1 = []) :
    (generate u chunks (some e) history).1 = [errorText e]
    ∧ errorText e ≠ ""
    ∧ (generate u chunks (some e) history).2
        = history ++ [⟨"user", u⟩, ⟨"assistant", errorText e⟩] := by
  have hfull : (chunkLoop chunks "").2 = "" := chunkLoop_snd_of_fst_nil chunks h
  refine ⟨?_, errorText_ne_empty e, ?_⟩
  · show emittedOf (generateTrace u chunks (some e)) = _
    exact generateTrace_emitted_err_empty u e chunks hfull
  · rw [generate_snd]
    simp [finalResponseOf, fullResponseOf, hfull]

/-- C6 witness: the upstream raises before delivering any chunk. -/
theorem C6_witness :
    (chunkLoop [] "").1 = []
    ∧ ((generate "hi" [] (some "boom") []).1 = [errorText "boom"]
       ∧ errorText "boom" ≠ ""
       ∧ (generate "hi" [] (some "boom") []).2
           = [] ++ [⟨"user", "hi"⟩, ⟨"assistant", errorText "boom"⟩]) :=
  ⟨rfl, C6_total_failure "hi" "boom" [] [] rfl⟩

/-- C7: if every conversation in the store has an even message count, then
the count stays even after a get-or-create (which registers an empty list),
after a full chat invocation on any path (rejection, pre-stream failure, or
a completed or failed stream, which appends one pair), and after a clear
(which removes the whole key). -/
theorem C7_even_invariant (store : Store) (cid content : String)
    (initError : Option String) (chunks : List String) (err : Option String)
    (h : evenStore store) :
    evenStore (get_or_create_conversation store cid).1
    ∧ evenStore (ChatOutcome.store (chat store ⟨content, cid⟩ initError chunks err))
    ∧ evenStore (clear_conversation store cid).1 := by
  refine ⟨get_or_create_fst_even store cid h, ?_, ?_⟩
  · by_cases hb : isBlank content = true
    · simpa [chat, hb, ChatOutcome.store] using h
    · have hb1 : isBlank content = false := by
        simpa using hb
      cases initError with
      | some e =>
          simpa [chat, hb1, ChatOutcome.store] using
            get_or_create_fst_even store cid h
      | none =>
          have hlen : (generate content chunks err
              (get_or_create_conversation store cid).2).2.length
              = (get_or_create_conversation store cid).2.length + 2 := by
            rw [generate_snd]
            simp
          have heven : Even (generate content chunks err
              (get_or_create_conversation store cid).2).2.length := by
            rw [hlen]
            exact (get_or_create_snd_even store cid h).add even_two
          simpa [chat, hb1, ChatOutcome.store] using
            evenStore_setKey cid _ heven _ (get_or_create_fst_even store cid h)
  · by_cases hc : (Store.find? store cid).isSome = true
    · simpa [clear_conversation, hc] using evenStore_erase cid store h
    · simpa [clear_conversation, hc] using h

/-- C7 witness: a store holding one two-message conversation, run through a
successful exchange. -/
theorem C7_witness :
    evenStore [("a", [⟨"user", "x"⟩, ⟨"assistant", "y"⟩])]
    ∧ (evenStore (get_or_create_conversation
          [("a", [⟨"user", "x"⟩, ⟨"assistant", "y"⟩])] "a").1
       ∧ evenStore (ChatOutcome.store (chat
          [("a", [⟨"user", "x"⟩, ⟨"assistant", "y"⟩])] ⟨"hi", "a"⟩ none ["ok"] none))
       ∧ evenStore (clear_conversation
          [("a", [⟨"user", "x"⟩, ⟨"assistant", "y"⟩])] "a").1) :=
  ⟨by decide, C7_even_invariant [("a", [⟨"user", "x"⟩, ⟨"assistant", "y"⟩])]
      "a" "hi" none ["ok"] none (by decide)⟩

/-- C8: clearing any conversation id, including an unknown one, returns
status "cleared" with the id and never fails; afterwards reading the
conversation gives an empty message list, and clearing again leaves the
store unchanged (clear is idempotent). -/
theorem C8_clear_idempotent (store : Store) (cid : String) :
    (clear_conversation store cid).2 = ⟨"cleared", cid⟩
    ∧ (get_conversation (clear_conversation store cid).1 cid).messages = []
    ∧ (clear_conversation (clear_conversation store cid).1 cid).1
        = (clear_conversation store cid).1 := by
  refine ⟨rfl, ?_, ?_⟩
  · simp [get_conversation, find?_clear]
  · have h := find?_clear store cid
    revert h
    generalize (clear_conversation store cid).1 = s1
    intro h
    simp [clear_conversation, h]

/-- C9: if the upstream fails after text has been accumulated, the yielded
fragments are exactly those of the chunk loop (no error indicator is
emitted), their concatenation is the accumulated text, and the assistant
message committed to the conversation carries exactly that accumulated
text, not the error text. -/
theorem C9_partial_then_failure (u e : String) (chunks : List String)
    (history : Conversation) (h : fullResponseOf chunks ≠ "") :
    (generate u chunks (some e) history).1 = emittedOf (chunkLoop chunks "").1
    ∧ concatAll ((generate u chunks (some e) history).1) = fullResponseOf chunks
    ∧ (generate u chunks (some e) history).2
        = history ++ [⟨"user", u⟩, ⟨"assistant", fullResponseOf chunks⟩] := by
  have h1 : (generate u chunks (some e) history).1
      = emittedOf (chunkLoop chunks "").1 :=
    generateTrace_emitted_err_nonempty u e chunks h
  refine ⟨h1, ?_, ?_⟩
  · rw [h1, concatAll_emitted_eq_full]
  · rw [generate_snd]
    simp [finalResponseOf, h]

/-- C9 witness: one fragment delivered, then the upstream raises. -/
theorem C9_witness :
    fullResponseOf ["Hello"] ≠ ""
    ∧ ((generate "hi" ["Hello"] (some "boom") []).1
          = emittedOf (chunkLoop ["Hello"] "").1
       ∧ concatAll ((generate "hi" ["Hello"] (some "boom") []).1)
          = fullResponseOf ["Hello"]
       ∧ (generate "hi" ["Hello"] (some "boom") []).2
          = [] ++ [⟨"user", "hi"⟩, ⟨"assistant", fullResponseOf ["Hello"]⟩]) :=
  ⟨by decide, C9_partial_then_failure "hi" "boom" ["Hello"] [] (by decide)⟩

/-- C10: for every non-blank request, the conversation id is registered in
the store before streaming begins: a pre-stream failure (500) leaves the
store with the id present — bound to a fresh empty list when the id was
new — and after a streamed invocation the id is present as well. -/
theorem C10_registered_before_streaming (store : Store) (cid content e : String)
    (chunks : List String) (err : Option String) (h : isBlank content = false) :
    chat store ⟨content, cid⟩ (some e) chunks err
      = ChatOutcome.serverError e (get_or_create_conversation store cid).1
    ∧ (Store.find? (get_or_create_conversation store cid).1 cid).isSome = true
    ∧ (Store.find? store cid = none →
        (get_or_create_conversation store cid).1 = store ++ [(cid, [])])
    ∧ (Store.find? (ChatOutcome.store
          (chat store ⟨content, cid⟩ none chunks err)) cid).isSome = true := by
  refine ⟨by simp [chat, h], ?_, ?_, ?_⟩
  · cases hfind : Store.find? store cid with
    | some conv => simp [get_or_create_conversation, hfind]
    | none => simp [get_or_create_conversation, hfind, Store.find?_setKey_self]
  · intro hfind
    simp [get_or_create_conversation, hfind, Store.setKey_of_absent store cid [] hfind]
  · simp [chat, h, ChatOutcome.store, Store.find?_setKey_self]

/-- C10 witness: a fresh id, with a pre-stream failure. -/
theorem C10_witness :
    isBlank "hi" = false
    ∧ (chat [] ⟨"hi", "a"⟩ (some "boom") [] none
        = ChatOutcome.serverError "boom" (get_or_create_conversation [] "a").1
       ∧ (Store.find? (get_or_create_conversation [] "a").1 "a").isSome = true
       ∧ (Store.find? [] "a" = none →
            (get_or_create_conversation [] "a").1 = [] ++ [("a", [])])
       ∧ (Store.find? (ChatOutcome.store
            (chat [] ⟨"hi", "a"⟩ none [] none)) "a").isSome = true) :=
  ⟨by decide, C10_registered_before_streaming [] "a" "hi" "boom" [] none (by decide)⟩
